import Mathlib

/-!
Shallow embedding of the two dashboard scripts of this repository:
`3_EmployeeAttendence.py` (attendance form, session log, Excel export) and
`5_Display_And_Style_Data.py` (synthetic product dataset, editable grid with
revenue recomputation).  Dates are modelled as epoch-day numbers and
timestamps as epoch instants (`Nat`); spreadsheets are modelled at the cell
level (a sheet is a header row plus a list of rows of typed cells).
-/

set_option autoImplicit false

namespace Attendance

/-- Attendance status: the fixed four-value enumeration offered by the
selectbox `["Present", "Absent", "Remote", "On Leave"]`. -/
inductive Status where
  | present
  | absent
  | remote
  | onLeave
deriving DecidableEq, Repr

/-- Display label of a status, exactly the strings in the source list. -/
def Status.label : Status → String
  | .present => "Present"
  | .absent  => "Absent"
  | .remote  => "Remote"
  | .onLeave => "On Leave"

/-- The selectbox option list, in source order. -/
def statusOptions : List Status := [.present, .absent, .remote, .onLeave]

/-- One attendance record, as appended by the form submission handler:
`{"Date": date, "Employee ID": emp_id, "Employee Name": emp_name,
"Status": status, "Timestamp": pd.Timestamp.now()}`. -/
structure AttendanceRecord where
  date : Nat
  empId : String
  empName : String
  status : Status
  timestamp : Nat
deriving DecidableEq, Repr

/-- The form submission handler: `st.session_state.attendance_data.append(...)`.
`now` is the capture-time instant (`pd.Timestamp.now()`). -/
def submit (log : List AttendanceRecord) (date : Nat) (empId empName : String)
    (status : Status) (now : Nat) : List AttendanceRecord :=
  log ++ [⟨date, empId, empName, status, now⟩]

/-- One form submission event (field values plus the instant of capture). -/
structure Submission where
  date : Nat
  empId : String
  empName : String
  status : Status
  now : Nat
deriving DecidableEq, Repr

/-- The record a submission event produces. -/
def Submission.record (s : Submission) : AttendanceRecord :=
  ⟨s.date, s.empId, s.empName, s.status, s.now⟩

/-- Replaying a sequence of form submissions against the session log. -/
def runSubmissions (log : List AttendanceRecord) : List Submission → List AttendanceRecord
  | [] => log
  | s :: rest => runSubmissions (submit log s.date s.empId s.empName s.status s.now) rest

/-- The default (unedited) form state: `st.text_input` defaults to the empty
string, `st.selectbox` defaults to the first option, and
`st.date_input("Select Date", pd.Timestamp.now().date())` defaults to the
current calendar date. -/
structure FormState where
  empId : String
  empName : String
  status : Status
  date : Nat
deriving DecidableEq, Repr

/-- Status the selectbox shows before the user touches it: the head of the
option list. -/
def defaultStatus : Status := statusOptions.head (by simp [statusOptions])

/-- Form state rendered with no user edits, on a day whose current date is
`today`. -/
def defaultForm (today : Nat) : FormState :=
  { empId := "", empName := "", status := defaultStatus, date := today }

/-- One spreadsheet cell, at the typed-cell level of abstraction used by the
export: a calendar date, a text value, or a timestamp. -/
inductive Cell where
  | date (d : Nat)
  | text (s : String)
  | dateTime (t : Nat)
deriving DecidableEq, Repr

/-- A single worksheet: sheet name, header row, data rows. -/
structure Sheet where
  name : String
  header : List String
  rows : List (List Cell)
deriving DecidableEq, Repr

/-- Column order of the dataframe built from the session log, i.e. the key
order of the appended dict. -/
def attendanceHeader : List String :=
  ["Date", "Employee ID", "Employee Name", "Status", "Timestamp"]

/-- The cells of one exported row, in field order, with no index cell. -/
def recordCells (r : AttendanceRecord) : List Cell :=
  [.date r.date, .text r.empId, .text r.empName, .text r.status.label,
   .dateTime r.timestamp]

/-- The `to_excel` helper: `df.to_excel(writer, index=False,
sheet_name='Attendance')` — one row of cells per record, header in field
order, no index column, single sheet named "Attendance". -/
def to_excel (log : List AttendanceRecord) : Sheet :=
  { name := "Attendance", header := attendanceHeader,
    rows := log.map recordCells }

/-- Parsing a status cell back from its display label. -/
def Status.ofLabel (s : String) : Option Status :=
  statusOptions.find? fun st => st.label == s

/-- Re-reading one spreadsheet row into a record. -/
def cellsToRecord : List Cell → Option AttendanceRecord
  | [Cell.date d, Cell.text i, Cell.text n, Cell.text s, Cell.dateTime t] =>
      (Status.ofLabel s).map fun st => ⟨d, i, n, st, t⟩
  | _ => none

/-- Re-reading a list of spreadsheet rows, failing on any malformed row. -/
def readRows : List (List Cell) → Option (List AttendanceRecord)
  | [] => some []
  | cs :: rest =>
      match cellsToRecord cs, readRows rest with
      | some r, some rs => some (r :: rs)
      | _, _ => none

/-- Re-reading the produced spreadsheet. -/
def readSheet (sh : Sheet) : Option (List AttendanceRecord) :=
  readRows sh.rows

/-- Error raised by the spreadsheet serialization layer. -/
structure SerError where
  msg : String
deriving DecidableEq, Repr

/-- The download control offered by `st.download_button`. -/
structure Download where
  label : String
  data : Sheet
  fileName : String
  mime : String
deriving DecidableEq, Repr

/-- What the display section renders: either the records table plus the
download control, or the informational message. -/
inductive View where
  | records (table : List AttendanceRecord) (button : Download)
  | info (msg : String)
deriving DecidableEq, Repr

/-- The guidance message of the empty branch (`st.info(...)`). -/
def infoMessage : String := "No attendance records yet. Please submit the form above."

/-- Label of the download button. -/
def downloadLabel : String := "📥 Download Attendance as Excel"

/-- File name passed to `st.download_button`. -/
def attendanceFileName : String := "employee_attendance.xlsx"

/-- MIME type passed to `st.download_button`. -/
def xlsxMime : String :=
  "application/vnd.openxmlformats-officedocument.spreadsheetml.sheet"

/-- A (possibly failing) spreadsheet serializer, the shape of `to_excel`
viewed as a fallible library call. -/
def Serializer : Type := List AttendanceRecord → Except SerError Sheet

/-- One invocation of the serializer, instrumented with a call counter. -/
def callSer (ser : Serializer) (log : List AttendanceRecord) (calls : Nat) :
    Except SerError Sheet × Nat :=
  (ser log, calls + 1)

/-- The display section of the script, instrumented with a serializer call
counter: if the log is non-empty, serialize once and offer the download
(propagating a serialization error as-is); otherwise show the info
message. -/
def renderBodyCounted (ser : Serializer) (log : List AttendanceRecord)
    (calls : Nat) : Except SerError View × Nat :=
  if log.isEmpty then (Except.ok (View.info infoMessage), calls)
  else
    match callSer ser log calls with
    | (Except.error e, c) => (Except.error e, c)
    | (Except.ok sh, c) =>
        (Except.ok (View.records log
          { label := downloadLabel, data := sh,
            fileName := attendanceFileName, mime := xlsxMime }), c)

/-- The display section, result only. -/
def renderBody (ser : Serializer) (log : List AttendanceRecord) :
    Except SerError View :=
  (renderBodyCounted ser log 0).1

/-- How many times one render invokes the serializer. -/
def serializerCalls (ser : Serializer) (log : List AttendanceRecord) : Nat :=
  (renderBodyCounted ser log 0).2

/-- Whether the rendered output offers the export control. -/
def exportOffered : Except SerError View → Bool
  | Except.ok (View.records _ _) => true
  | _ => false

/-- The actual serializer of the script, at the cell level: `to_excel` never
fails in this model. -/
def excelSerializer : Serializer := fun log => Except.ok (to_excel log)

/-- A sample record used to instantiate hypotheses at concrete inputs. -/
def sampleRecord : AttendanceRecord :=
  ⟨19733, "E1", "Alice", .present, 1700000000⟩

/-- A failing serializer, standing for an xlsxwriter error. -/
def failingSerializer : Serializer := fun _ => Except.error ⟨"xlsxwriter failure"⟩

end Attendance

namespace Showcase

/-- One row of the synthetic product dataset (the nine generated columns plus
the derived `revenue` column `df["units"] * df["price"]`).  `units` and
`price` are integer-valued in the source (`int(...)` and `float(rng.integers(...))`),
`rating` is drawn from a fixed list of decimals, dates are epoch days. -/
structure ProductRow where
  id : Nat
  product : String
  category : String
  units : Int
  price : Int
  rating : Rat
  in_stock : Bool
  added_on : Nat
  url : String
  revenue : Int
deriving DecidableEq, Repr

/-- The fixed product list of the script, in order. -/
def products : List (String × String) :=
  [("Engine Oil", "AutoCare"), ("Air Filter", "AutoCare"),
   ("Spark Plug", "AutoCare"), ("Brake Pads", "AutoCare"),
   ("Coolant", "AutoCare"), ("Wiper Blade", "AutoCare"),
   ("GPS Tracker", "Electronics"), ("Phone Mount", "Electronics"),
   ("Dash Cam", "Electronics"), ("Tyre Shine", "CarCare")]

/-- The rating choice list `[3.2, 3.8, 4.0, 4.3, 4.6, 4.8, 5.0]`. -/
def ratingChoices : List Rat := [3.2, 3.8, 4.0, 4.3, 4.6, 4.8, 5.0]

/-- The in-stock choice list `[True, True, True, False]`. -/
def stockChoices : List Bool := [true, true, true, false]

/-- One generated product row.  `g` is the stream of raw draws of the seeded
generator (`np.random.default_rng(42)`), `k` the index of its next draw;
each of the five `rng` calls of the loop body consumes one draw, mapped into
its range: `rng.integers(50, 400)`, `rng.integers(150, 3500)`,
`rng.choice(ratings)`, `rng.choice(stock)`, `rng.integers(0, 120)` days
after `start`.  The derived revenue is `units * price`. -/
def genRow (g : Nat → Nat) (startDay : Nat) (k i : Nat)
    (pc : String × String) : ProductRow :=
  let units : Int := Int.ofNat (50 + g k % 350)
  let price : Int := Int.ofNat (150 + g (k + 1) % 3350)
  { id := i, product := pc.1, category := pc.2, units := units, price := price,
    rating := ratingChoices.getD (g (k + 2) % 7) 0,
    in_stock := stockChoices.getD (g (k + 3) % 4) true,
    added_on := startDay + g (k + 4) % 120,
    url := "https://example.com/product/" ++ toString i,
    revenue := units * price }

/-- The generation loop `for i, (name, cat) in enumerate(products, start=1)`,
threading the draw counter (five draws per product) and the id counter. -/
def genRows (g : Nat → Nat) (startDay : Nat) :
    Nat → Nat → List (String × String) → List ProductRow
  | _, _, [] => []
  | k, i, pc :: rest =>
      genRow g startDay k i pc :: genRows g startDay (k + 5) (i + 1) rest

/-- The whole dataset build: `start = date.today() - timedelta(days=120)`,
then the loop over `products` from id 1 and draw 0. -/
def generate (g : Nat → Nat) (today : Nat) : List ProductRow :=
  genRows g (today - 120) 0 1 products

/-- One row of the editable grid
`df[["id", "product", "units", "price", "in_stock"]]` as the merge consumes
it: only the `id`, `units` and `in_stock` columns are joined back. -/
structure EditRow where
  id : Nat
  units : Int
  in_stock : Bool
deriving DecidableEq, Repr

/-- Projection of a base row to the editable columns the merge reads
(`edited[["id", "units", "in_stock"]]`); the untouched editor returns
exactly this projection of every base row. -/
def projEdit (r : ProductRow) : EditRow :=
  { id := r.id, units := r.units, in_stock := r.in_stock }

/-- A merged row: the base columns minus the dropped `units`/`in_stock`
(`df.drop(columns=["units", "in_stock"])`), joined with the edited columns,
which are missing (NaN) when no edited row carries the id. -/
structure MergedRow where
  id : Nat
  product : String
  category : String
  price : Int
  rating : Rat
  added_on : Nat
  url : String
  revenue : Option Int
  units : Option Int
  in_stock : Option Bool
deriving DecidableEq, Repr

/-- A base row joined with one matching edited row. -/
def mergeFun (b : ProductRow) (e : EditRow) : MergedRow :=
  { id := b.id, product := b.product, category := b.category, price := b.price,
    rating := b.rating, added_on := b.added_on, url := b.url,
    revenue := some b.revenue, units := some e.units,
    in_stock := some e.in_stock }

/-- A base row with no matching edited row (left join keeps it, with the
joined columns missing). -/
def unmatchedRow (b : ProductRow) : MergedRow :=
  { id := b.id, product := b.product, category := b.category, price := b.price,
    rating := b.rating, added_on := b.added_on, url := b.url,
    revenue := some b.revenue, units := none, in_stock := none }

/-- The rows the left join produces for one base row: one per matching
edited row, or a single unmatched row. -/
def joinRow (edited : List EditRow) (b : ProductRow) : List MergedRow :=
  match edited.filter (fun e => e.id == b.id) with
  | [] => [unmatchedRow b]
  | ms => ms.map (mergeFun b)

/-- `df.drop(columns=["units", "in_stock"]).merge(edited[["id", "units",
"in_stock"]], on="id", how="left")`: for each base row in order, all
matching edited rows (in edited order), or one unmatched row. -/
def leftJoin (base : List ProductRow) (edited : List EditRow) :
    List MergedRow :=
  base.flatMap (joinRow edited)

/-- `merged["revenue"] = merged["units"] * merged["price"]` on one row. -/
def recomputeRow (r : MergedRow) : MergedRow :=
  { r with revenue := r.units.map fun u => u * r.price }

/-- The revenue-recomputation assignment over the merged frame. -/
def recomputeRevenue (rows : List MergedRow) : List MergedRow :=
  rows.map recomputeRow

/-- The whole recompute section: merge, then recompute revenue. -/
def recomputed (base : List ProductRow) (edited : List EditRow) :
    List MergedRow :=
  recomputeRevenue (leftJoin base edited)

/-- Base rows used to instantiate the grid theorems at concrete inputs. -/
def sampleRow1 : ProductRow :=
  { id := 1, product := "Engine Oil", category := "AutoCare", units := 100,
    price := 20, rating := 4, in_stock := true, added_on := 19650,
    url := "https://example.com/product/1", revenue := 2000 }

/-- Second sample base row. -/
def sampleRow2 : ProductRow :=
  { id := 2, product := "Air Filter", category := "AutoCare", units := 60,
    price := 10, rating := 5, in_stock := false, added_on := 19651,
    url := "https://example.com/product/2", revenue := 600 }

/-- A two-row base dataset. -/
def sampleBase : List ProductRow := [sampleRow1, sampleRow2]

/-- The editor output after changing the first row's units from 100 to 150. -/
def sampleEdited : List EditRow := [⟨1, 150, true⟩, ⟨2, 60, false⟩]

end Showcase

namespace Attendance

theorem runSubmissions_eq (log : List AttendanceRecord) (subs : List Submission) :
    runSubmissions log subs = log ++ subs.map Submission.record := by
  induction subs generalizing log with
  | nil => simp [runSubmissions]
  | cons s rest ih =>
      simp [runSubmissions, submit, ih, Submission.record]

theorem ofLabel_label (s : Status) : Status.ofLabel s.label = some s := by
  cases s <;> rfl

theorem cellsToRecord_recordCells (r : AttendanceRecord) :
    cellsToRecord (recordCells r) = some r := by
  cases r with
  | mk d i n s t => simp [recordCells, cellsToRecord, ofLabel_label]

theorem readSheet_to_excel (log : List AttendanceRecord) :
    readSheet (to_excel log) = some log := by
  induction log with
  | nil => rfl
  | cons r rest ih =>
      simp only [readSheet, to_excel] at ih ⊢
      simp [readRows, cellsToRecord_recordCells, ih]

/-- C1: every sequence of N form submissions leaves the session log with
exactly N records, in submission order, with no deduplication: the log is
literally the map of `Submission.record` over the submission sequence, so two
submissions sharing employee id, name and date but differing in status are
both retained, giving count 2. -/
theorem submissions_retained_in_order (subs : List Submission) :
    runSubmissions [] subs = subs.map Submission.record ∧
    (runSubmissions [] subs).length = subs.length ∧
    (∀ d i n t₁ t₂,
      runSubmissions []
        [⟨d, i, n, .present, t₁⟩, ⟨d, i, n, .remote, t₂⟩] =
        [⟨d, i, n, .present, t₁⟩, ⟨d, i, n, .remote, t₂⟩] ∧
      (runSubmissions []
        [⟨d, i, n, .present, t₁⟩, ⟨d, i, n, .remote, t₂⟩]).length = 2) := by
  refine ⟨by simpa using runSubmissions_eq [] subs, ?_, ?_⟩
  · simp [runSubmissions_eq]
  · intro d i n t₁ t₂
    constructor
    · simp [runSubmissions_eq, Submission.record]
    · simp [runSubmissions_eq]

/-- C7: `submit` is a total function: for every input tuple, including empty
identifier and name strings, it returns normally, performs no validation,
and its whole effect is appending exactly one record that carries the given
capture instant as its timestamp; the existing records are untouched. -/
theorem submit_always_appends_one (log : List AttendanceRecord) (d : Nat)
    (i n : String) (s : Status) (now : Nat) :
    submit log d i n s now = log ++ [⟨d, i, n, s, now⟩] ∧
    (submit log d i n s now).length = log.length + 1 ∧
    (submit log d i n s now).take log.length = log ∧
    (submit log d i n s now).getLast? = some ⟨d, i, n, s, now⟩ ∧
    (⟨d, i, n, s, now⟩ : AttendanceRecord).timestamp = now := by
  refine ⟨rfl, by simp [submit], by simp [submit], ?_, rfl⟩
  simp [submit]

/-- C2: over every reachable session state (any replayed submission
sequence), the export control is offered iff the log is non-empty; with zero
records the rendered body is the informational guidance message and the
export control is absent. -/
theorem export_offered_iff_records_exist (ser : Serializer)
    (hser : ∀ l, ∃ sh, ser l = Except.ok sh) (subs : List Submission) :
    (exportOffered (renderBody ser (runSubmissions [] subs)) = true ↔
      runSubmissions [] subs ≠ []) ∧
    renderBody ser [] = Except.ok (View.info infoMessage) ∧
    exportOffered (renderBody ser []) = false := by
  refine ⟨?_, rfl, rfl⟩
  cases h : runSubmissions [] subs with
  | nil => simp [renderBody, renderBodyCounted, exportOffered]
  | cons a l =>
      obtain ⟨sh, hsh⟩ := hser (a :: l)
      simp [renderBody, renderBodyCounted, callSer, hsh, exportOffered]

theorem export_offered_iff_records_exist_witness :
    (exportOffered (renderBody excelSerializer
        (runSubmissions [] [⟨19733, "E1", "Alice", .present, 1700000000⟩])) = true ↔
      runSubmissions [] [⟨19733, "E1", "Alice", .present, 1700000000⟩] ≠ []) ∧
    renderBody excelSerializer [] = Except.ok (View.info infoMessage) ∧
    exportOffered (renderBody excelSerializer []) = false :=
  export_offered_iff_records_exist excelSerializer
    (fun l => ⟨to_excel l, rfl⟩) [⟨19733, "E1", "Alice", .present, 1700000000⟩]

/-- C3: exporting a non-empty log to the spreadsheet and re-reading it
reproduces every row exactly — date, both text fields, status and timestamp
round-trip through the cells. -/
theorem export_read_round_trip (log : List AttendanceRecord) (_h : log ≠ []) :
    readSheet (to_excel log) = some log :=
  readSheet_to_excel log

theorem export_read_round_trip_witness :
    readSheet (to_excel [sampleRecord]) = some [sampleRecord] :=
  export_read_round_trip [sampleRecord] (by simp)

/-- C4: for a non-empty log the rendered export is a download control
labelled for the sheet produced by `to_excel`, named
`employee_attendance.xlsx` with the xlsx MIME type; the sheet is single,
named "Attendance", with the field names as header, exactly one cell row per
record in order, each row exactly the five field cells (no index column). -/
theorem export_artifact_shape (log : List AttendanceRecord) (h : log ≠ []) :
    renderBody excelSerializer log = Except.ok (View.records log
      { label := downloadLabel, data := to_excel log,
        fileName := attendanceFileName, mime := xlsxMime }) ∧
    attendanceFileName = "employee_attendance.xlsx" ∧
    xlsxMime = "application/vnd.openxmlformats-officedocument.spreadsheetml.sheet" ∧
    (to_excel log).name = "Attendance" ∧
    (to_excel log).header = ["Date", "Employee ID", "Employee Name", "Status", "Timestamp"] ∧
    (to_excel log).rows = log.map recordCells ∧
    (to_excel log).rows.length = log.length ∧
    ((to_excel log).rows.all fun cs => cs.length == attendanceHeader.length) = true := by
  refine ⟨?_, rfl, rfl, rfl, rfl, rfl, by simp [to_excel], ?_⟩
  · cases log with
    | nil => exact absurd rfl h
    | cons a l =>
        simp [renderBody, renderBodyCounted, callSer, excelSerializer]
  · simp [to_excel, List.all_eq_true, attendanceHeader, recordCells]

theorem export_artifact_shape_witness :
    renderBody excelSerializer [sampleRecord] = Except.ok (View.records [sampleRecord]
      { label := downloadLabel, data := to_excel [sampleRecord],
        fileName := attendanceFileName, mime := xlsxMime }) ∧
    attendanceFileName = "employee_attendance.xlsx" ∧
    xlsxMime = "application/vnd.openxmlformats-officedocument.spreadsheetml.sheet" ∧
    (to_excel [sampleRecord]).name = "Attendance" ∧
    (to_excel [sampleRecord]).header = ["Date", "Employee ID", "Employee Name", "Status", "Timestamp"] ∧
    (to_excel [sampleRecord]).rows = [sampleRecord].map recordCells ∧
    (to_excel [sampleRecord]).rows.length = [sampleRecord].length ∧
    ((to_excel [sampleRecord]).rows.all fun cs => cs.length == attendanceHeader.length) = true :=
  export_artifact_shape [sampleRecord] (by simp)

/-- C6: if the spreadsheet serializer fails on a non-empty log, the render of
that single export attempt surfaces exactly that error, offers no download
(so no silent empty or corrupt file), and the serializer was invoked exactly
once (no retry). -/
theorem serialization_failure_surfaces (ser : Serializer)
    (log : List AttendanceRecord) (e : SerError)
    (hne : log ≠ []) (hfail : ser log = Except.error e) :
    renderBody ser log = Except.error e ∧
    exportOffered (renderBody ser log) = false ∧
    serializerCalls ser log = 1 := by
  cases log with
  | nil => exact absurd rfl hne
  | cons a l =>
      refine ⟨?_, ?_, ?_⟩ <;>
        simp [renderBody, serializerCalls, renderBodyCounted, callSer, hfail,
          exportOffered]

theorem serialization_failure_surfaces_witness :
    renderBody failingSerializer [sampleRecord] =
      Except.error ⟨"xlsxwriter failure"⟩ ∧
    exportOffered (renderBody failingSerializer [sampleRecord]) = false ∧
    serializerCalls failingSerializer [sampleRecord] = 1 :=
  serialization_failure_surfaces failingSerializer [sampleRecord]
    ⟨"xlsxwriter failure"⟩ (by simp) rfl

/-- C10: the untouched form records today's date with status "Present": the
date field defaults to the current calendar date and the status field to the
first enumeration value, which is `Present`. -/
theorem default_form_submission (log : List AttendanceRecord) (today now : Nat) :
    defaultStatus = Status.present ∧
    statusOptions.head? = some Status.present ∧
    Status.present.label = "Present" ∧
    (defaultForm today).date = today ∧
    submit log (defaultForm today).date (defaultForm today).empId
        (defaultForm today).empName (defaultForm today).status now =
      log ++ [⟨today, "", "", Status.present, now⟩] := by
  refine ⟨rfl, rfl, rfl, rfl, rfl⟩

end Attendance

namespace Showcase

theorem flatMapCongr {α β : Type} {l : List α} {f g : α → List β}
    (h : ∀ a ∈ l, f a = g a) : l.flatMap f = l.flatMap g := by
  induction l with
  | nil => rfl
  | cons a t ih =>
      simp only [List.flatMap_cons]
      rw [h a (by simp), ih fun x hx => h x (by simp [hx])]

theorem setSelf {α : Type} (l : List α) : ∀ (j : Nat) (a : α),
    l[j]? = some a → l.set j a = l := by
  induction l with
  | nil => intro j a h; simp at h
  | cons x t ih =>
      intro j a h
      cases j with
      | zero => simp at h; simp [h]
      | succ j =>
          simp only [List.getElem?_cons_succ] at h
          simp [ih j a h]

theorem zipWithLeftProj {α β γ : Type} (f : α → γ) :
    ∀ (l₁ : List α) (l₂ : List β), l₁.length = l₂.length →
      List.zipWith (fun a _ => f a) l₁ l₂ = l₁.map f := by
  intro l₁
  induction l₁ with
  | nil => intro l₂ h; rfl
  | cons a t ih =>
      intro l₂ h
      cases l₂ with
      | nil => simp at h
      | cons b t₂ =>
          simp only [List.zipWith_cons_cons, List.map_cons]
          rw [ih t₂ (by simpa using h)]

theorem zipWithRightProj {α β γ : Type} (f : β → γ) :
    ∀ (l₁ : List α) (l₂ : List β), l₁.length = l₂.length →
      List.zipWith (fun _ b => f b) l₁ l₂ = l₂.map f := by
  intro l₁
  induction l₁ with
  | nil =>
      intro l₂ h
      cases l₂ with
      | nil => rfl
      | cons b t₂ => simp at h
  | cons a t ih =>
      intro l₂ h
      cases l₂ with
      | nil => simp at h
      | cons b t₂ =>
          simp only [List.zipWith_cons_cons, List.map_cons]
          rw [ih t₂ (by simpa using h)]

theorem zipWithSetRight {α β γ : Type} (f : α → β → γ) :
    ∀ (l : List α) (m : List β) (j : Nat) (a : α) (b : β),
      l[j]? = some a →
      List.zipWith f l (m.set j b) = (List.zipWith f l m).set j (f a b) := by
  intro l
  induction l with
  | nil => intro m j a b h; simp at h
  | cons x t ih =>
      intro m j a b h
      cases m with
      | nil => simp
      | cons y s =>
          cases j with
          | zero =>
              simp only [List.getElem?_cons_zero, Option.some.injEq] at h
              simp [h]
          | succ j =>
              simp only [List.getElem?_cons_succ] at h
              simp [ih s j a b h]

theorem joinRowDropHead (e : EditRow) (es : List EditRow) (b : ProductRow)
    (h : e.id ≠ b.id) : joinRow (e :: es) b = joinRow es b := by
  simp [joinRow, List.filter_cons, h]

theorem joinRowSingle (e : EditRow) (es : List EditRow) (b : ProductRow)
    (he : e.id = b.id) (hes : ∀ x ∈ es, x.id ≠ b.id) :
    joinRow (e :: es) b = [mergeFun b e] := by
  have hnil : es.filter (fun x => x.id == b.id) = [] := by
    rw [List.filter_eq_nil_iff]
    intro x hx
    simpa using hes x hx
  simp [joinRow, List.filter_cons, he, hnil]

theorem leftJoin_eq_zipWith :
    ∀ (base : List ProductRow) (edited : List EditRow),
      edited.map EditRow.id = base.map ProductRow.id →
      (base.map ProductRow.id).Nodup →
      leftJoin base edited = List.zipWith mergeFun base edited := by
  intro base
  induction base with
  | nil =>
      intro edited hids _
      have hnil : edited = [] := by
        cases edited with
        | nil => rfl
        | cons e es => simp at hids
      subst hnil; rfl
  | cons b bs ih =>
      intro edited hids hnodup
      cases edited with
      | nil => simp at hids
      | cons e es =>
          simp only [List.map_cons, List.cons.injEq] at hids
          obtain ⟨hid, hids2⟩ := hids
          rw [List.map_cons, List.nodup_cons] at hnodup
          obtain ⟨hnotin, hnodup2⟩ := hnodup
          have hes : ∀ x ∈ es, x.id ≠ b.id := by
            intro x hx hxe
            exact hnotin (by rw [← hids2]; exact hxe ▸ List.mem_map_of_mem EditRow.id hx)
          have hbs : ∀ c ∈ bs, joinRow (e :: es) c = joinRow es c := by
            intro c hc
            apply joinRowDropHead
            rw [hid]
            intro hbc
            exact hnotin (hbc ▸ List.mem_map_of_mem ProductRow.id hc)
          calc leftJoin (b :: bs) (e :: es)
              = joinRow (e :: es) b ++ bs.flatMap (joinRow (e :: es)) := by
                simp [leftJoin, List.flatMap_cons]
            _ = [mergeFun b e] ++ bs.flatMap (joinRow es) := by
                rw [joinRowSingle e es b hid hes, flatMapCongr hbs]
            _ = mergeFun b e :: leftJoin bs es := by simp [leftJoin]
            _ = List.zipWith mergeFun (b :: bs) (e :: es) := by
                rw [ih es hids2 hnodup2, List.zipWith_cons_cons]

theorem recomputed_eq_zipWith (base : List ProductRow) (edited : List EditRow)
    (hids : edited.map EditRow.id = base.map ProductRow.id)
    (hnodup : (base.map ProductRow.id).Nodup) :
    recomputed base edited =
      List.zipWith (fun b e => recomputeRow (mergeFun b e)) base edited := by
  rw [recomputed, recomputeRevenue, leftJoin_eq_zipWith base edited hids hnodup,
    List.map_zipWith]

theorem recomputeInvariant (rows : List MergedRow) :
    ((recomputeRevenue rows).all fun r =>
      r.revenue == r.units.map fun u => u * r.price) = true := by
  simp only [recomputeRevenue, List.all_eq_true]
  intro x hx
  rw [List.mem_map] at hx
  obtain ⟨r, _, hrx⟩ := hx
  subst hrx
  simp [recomputeRow]

theorem genRowCongr (g₁ g₂ : Nat → Nat) (startDay k i : Nat)
    (pc : String × String) (h : ∀ j, k ≤ j → j < k + 5 → g₁ j = g₂ j) :
    genRow g₁ startDay k i pc = genRow g₂ startDay k i pc := by
  have h0 := h k (Nat.le_refl k) (by omega)
  have h1 := h (k + 1) (by omega) (by omega)
  have h2 := h (k + 2) (by omega) (by omega)
  have h3 := h (k + 3) (by omega) (by omega)
  have h4 := h (k + 4) (by omega) (by omega)
  simp [genRow, h0, h1, h2, h3, h4]

theorem genRowsCongr (g₁ g₂ : Nat → Nat) (startDay : Nat) :
    ∀ (ps : List (String × String)) (k i : Nat),
      (∀ j, k ≤ j → j < k + 5 * ps.length → g₁ j = g₂ j) →
      genRows g₁ startDay k i ps = genRows g₂ startDay k i ps := by
  intro ps
  induction ps with
  | nil => intro k i _; rfl
  | cons pc rest ih =>
      intro k i h
      have hhead : ∀ j, k ≤ j → j < k + 5 → g₁ j = g₂ j := by
        intro j hj1 hj2
        apply h j hj1
        simp only [List.length_cons]
        omega
      have htail : ∀ j, k + 5 ≤ j → j < (k + 5) + 5 * rest.length → g₁ j = g₂ j := by
        intro j hj1 hj2
        apply h j (by omega)
        simp only [List.length_cons]
        omega
      simp only [genRows]
      rw [genRowCongr g₁ g₂ startDay k i pc hhead, ih (k + 5) (i + 1) htail]

theorem genRowsRevenue (g : Nat → Nat) (startDay : Nat) :
    ∀ (ps : List (String × String)) (k i : Nat),
      ((genRows g startDay k i ps).all fun r =>
        r.revenue == r.units * r.price) = true := by
  intro ps
  induction ps with
  | nil => intro k i; rfl
  | cons pc rest ih =>
      intro k i
      simp only [genRows, List.all_cons, Bool.and_eq_true]
      exact ⟨by simp [genRow], ih (k + 5) (i + 1)⟩

/-- C8: the synthetic dataset is a deterministic function of the seeded draw
stream and the execution date: any two streams that agree on the draws the
generation consumes (five per product) yield identical rows — same ids,
names, categories, unit counts, prices, ratings, stock flags and derived
revenues — and every generated row carries revenue = units × price. -/
theorem generation_deterministic (g₁ g₂ : Nat → Nat) (today : Nat)
    (hagree : ∀ k, k < 5 * products.length → g₁ k = g₂ k) :
    generate g₁ today = generate g₂ today ∧
    ((generate g₁ today).all fun r => r.revenue == r.units * r.price) = true := by
  constructor
  · rw [generate, generate]
    exact genRowsCongr g₁ g₂ (today - 120) products 0 1
      (fun j _ hj2 => hagree j (by omega))
  · exact genRowsRevenue g₁ (today - 120) products 0 1

theorem generation_deterministic_witness :
    generate (fun n => n) 20000 = generate (fun n => 3 * n - 2 * n) 20000 ∧
    ((generate (fun n => n) 20000).all fun r =>
      r.revenue == r.units * r.price) = true :=
  generation_deterministic (fun n => n) (fun n => 3 * n - 2 * n) 20000
    (fun k _ => by show k = 3 * k - 2 * k; omega)

/-- C9: with distinct base ids and an editor output carrying exactly the
base ids (as the fixed-row grid does), the recompute step is a left join of
the edited `units`/`in_stock` columns onto the base rows by id: one
resulting row per base row, row count and order preserved, and the
non-editable columns (id, product, category, price, rating, added_on, url)
are column-for-column unchanged from the base data, while the editable
columns come from the editor. -/
theorem editable_grid_left_join_frame (base : List ProductRow)
    (edited : List EditRow)
    (hids : edited.map EditRow.id = base.map ProductRow.id)
    (hnodup : (base.map ProductRow.id).Nodup) :
    (recomputed base edited).length = base.length ∧
    (recomputed base edited).map MergedRow.id = base.map ProductRow.id ∧
    (recomputed base edited).map MergedRow.product = base.map ProductRow.product ∧
    (recomputed base edited).map MergedRow.category = base.map ProductRow.category ∧
    (recomputed base edited).map MergedRow.price = base.map ProductRow.price ∧
    (recomputed base edited).map MergedRow.rating = base.map ProductRow.rating ∧
    (recomputed base edited).map MergedRow.added_on = base.map ProductRow.added_on ∧
    (recomputed base edited).map MergedRow.url = base.map ProductRow.url ∧
    (recomputed base edited).map MergedRow.units = edited.map (fun e => some e.units) ∧
    (recomputed base edited).map MergedRow.in_stock = edited.map (fun e => some e.in_stock) := by
  have hlen : base.length = edited.length := by
    have hcong := congrArg List.length hids
    simpa using hcong.symm
  have hz := recomputed_eq_zipWith base edited hids hnodup
  refine ⟨?_, ?_, ?_, ?_, ?_, ?_, ?_, ?_, ?_, ?_⟩
  · rw [hz]; simp [hlen]
  · rw [hz, List.map_zipWith]
    exact zipWithLeftProj (fun b => b.id) base edited hlen
  · rw [hz, List.map_zipWith]
    exact zipWithLeftProj (fun b => b.product) base edited hlen
  · rw [hz, List.map_zipWith]
    exact zipWithLeftProj (fun b => b.category) base edited hlen
  · rw [hz, List.map_zipWith]
    exact zipWithLeftProj (fun b => b.price) base edited hlen
  · rw [hz, List.map_zipWith]
    exact zipWithLeftProj (fun b => b.rating) base edited hlen
  · rw [hz, List.map_zipWith]
    exact zipWithLeftProj (fun b => b.added_on) base edited hlen
  · rw [hz, List.map_zipWith]
    exact zipWithLeftProj (fun b => b.url) base edited hlen
  · rw [hz, List.map_zipWith]
    exact zipWithRightProj (fun e => some e.units) base edited hlen
  · rw [hz, List.map_zipWith]
    exact zipWithRightProj (fun e => some e.in_stock) base edited hlen

theorem editable_grid_left_join_frame_witness :
    (sampleEdited.map EditRow.id = sampleBase.map ProductRow.id) ∧
    (sampleBase.map ProductRow.id).Nodup ∧
    (recomputed sampleBase sampleEdited).length = sampleBase.length ∧
    (recomputed sampleBase sampleEdited).map MergedRow.price =
      sampleBase.map ProductRow.price ∧
    (recomputed sampleBase sampleEdited).map MergedRow.units =
      sampleEdited.map (fun e => some e.units) := by
  have h := editable_grid_left_join_frame sampleBase sampleEdited rfl (by decide)
  exact ⟨rfl, by decide, h.1, h.2.2.2.2.1, h.2.2.2.2.2.2.2.2.1⟩

/-- C5: editing one row's unit count from u to u2 in the fixed-row grid
changes only that row of the recomputed frame: its revenue becomes
u2 × price with the price taken unchanged from the base row, every other
row equals its unedited recomputation, prices are unchanged throughout, and
after recomputation every row satisfies revenue = units × price. -/
theorem edit_units_recomputes_revenue (base : List ProductRow) (j : Nat)
    (bj : ProductRow) (u2 : Int) (edited : List EditRow)
    (hnodup : (base.map ProductRow.id).Nodup)
    (hj : base[j]? = some bj)
    (hedit : edited = (base.map projEdit).set j { projEdit bj with units := u2 }) :
    ((recomputed base edited).map MergedRow.revenue)[j]? =
      some (some (u2 * bj.price)) ∧
    recomputed base edited =
      (recomputed base (base.map projEdit)).set j
        (recomputeRow (mergeFun bj { projEdit bj with units := u2 })) ∧
    (recomputed base edited).map MergedRow.price = base.map ProductRow.price ∧
    ((recomputed base edited).all fun r =>
      r.revenue == r.units.map fun u => u * r.price) = true := by
  subst hedit
  have hjlen : j < base.length := by
    rcases List.getElem?_eq_some_iff.mp hj with ⟨hlt, _⟩
    exact hlt
  have hidsBase : (base.map projEdit).map EditRow.id = base.map ProductRow.id := by
    simp [List.map_map, projEdit, Function.comp]
  have hjid : (base.map ProductRow.id)[j]? = some bj.id := by
    simp [List.getElem?_map, hj]
  have hidsEdit :
      ((base.map projEdit).set j { projEdit bj with units := u2 }).map EditRow.id =
        base.map ProductRow.id := by
    rw [List.map_set, hidsBase]
    exact setSelf (base.map ProductRow.id) j bj.id hjid
  have hz := recomputed_eq_zipWith base
    ((base.map projEdit).set j { projEdit bj with units := u2 }) hidsEdit hnodup
  have hz0 := recomputed_eq_zipWith base (base.map projEdit) hidsBase hnodup
  have hset :
      recomputed base ((base.map projEdit).set j { projEdit bj with units := u2 }) =
        (recomputed base (base.map projEdit)).set j
          (recomputeRow (mergeFun bj { projEdit bj with units := u2 })) := by
    rw [hz, hz0]
    exact zipWithSetRight (fun b e => recomputeRow (mergeFun b e)) base
      (base.map projEdit) j bj { projEdit bj with units := u2 } hj
  have hlen0 : j < (recomputed base (base.map projEdit)).length := by
    rw [hz0]
    simpa using hjlen
  refine ⟨?_, hset, ?_, ?_⟩
  · rw [hset, List.map_set]
    rw [List.getElem?_set_self (by simpa using hlen0)]
    rfl
  · rw [hz, List.map_zipWith]
    exact zipWithLeftProj (fun b => b.price) base
      ((base.map projEdit).set j { projEdit bj with units := u2 }) (by simp)
  · exact recomputeInvariant
      (leftJoin base ((base.map projEdit).set j { projEdit bj with units := u2 }))

theorem edit_units_recomputes_revenue_witness :
    sampleBase[0]? = some sampleRow1 ∧
    sampleEdited = (sampleBase.map projEdit).set 0 { projEdit sampleRow1 with units := 150 } ∧
    ((recomputed sampleBase sampleEdited).map MergedRow.revenue)[0]? =
      some (some 3000) ∧
    (recomputed sampleBase sampleEdited).map MergedRow.price =
      sampleBase.map ProductRow.price ∧
    ((recomputed sampleBase sampleEdited).all fun r =>
      r.revenue == r.units.map fun u => u * r.price) = true := by
  have h := edit_units_recomputes_revenue sampleBase 0 sampleRow1 150 sampleEdited
    (by decide) rfl rfl
  exact ⟨rfl, rfl, h.1, h.2.2.1, h.2.2.2⟩

end Showcase
